/-
Verification of the AMS (Agent Management Service) Supabase Edge Function,
`supabase/functions/ams/index.ts`.

The development is a shallow embedding of the core logic: the SemVer gate
(`assessSemver` plus the SemVer-syntax check done by `validateAgentFile`),
the version store (`handlePublishTemplate`, `resolveTemplateVersion`), the
migration planner (`buildMigrationPlan`), the dry-run engine
(`performDryRun`), the idempotency guard (`ensureIdempotency`) and the
upgrade dispatcher (`handleUpgradeAgent`).  Database rows are modelled as
Lean lists, external collaborators (the Letta HTTP API, the JSON-Patch
library) as explicit function parameters, and thrown exceptions as
`Except` values.
-/
import Mathlib

namespace AMS

/-! ## SemVer

Model of the `npm:semver` operations used by the source: `semver.valid`
(strict parse, optional leading `v`), `semver.lt` and the maximum under
`semver.rcompare`.  Build metadata is accepted by the parser and ignored by
the comparison, as in the library. -/

/-- One dot-separated pre-release identifier: purely numeric identifiers
compare numerically and below alphanumeric ones. -/
inductive PreId
  | num (n : Nat)
  | str (s : String)
deriving DecidableEq, Repr

/-- A parsed SemVer version.  Build metadata is dropped after validation
because it never participates in precedence. -/
structure SemVer where
  major : Nat
  minor : Nat
  patch : Nat
  pre : List PreId
deriving DecidableEq, Repr

/-- Split a character list at every occurrence of `sep` (the semantics of
`String.splitOn` for a one-character separator, by structural
recursion). -/
def splitOnChar (sep : Char) : List Char → List (List Char)
  | [] => [[]]
  | c :: cs =>
      match splitOnChar sep cs with
      | [] => [[]]
      | h :: t => if c = sep then [] :: h :: t else (c :: h) :: t

/-- An identifier character: `[0-9A-Za-z-]`. -/
def isIdentChar (c : Char) : Bool :=
  c.isAlpha || c.isDigit || c = '-'

/-- A numeric identifier: digits only, no leading zero (`0|[1-9]\d*`). -/
def isNumericIdent (cs : List Char) : Bool :=
  !cs.isEmpty && cs.all Char.isDigit && (cs = ['0'] || cs.head? ≠ some '0')

/-- A pre-release identifier: nonempty, identifier characters, and if
purely numeric then without a leading zero. -/
def isPreIdent (cs : List Char) : Bool :=
  !cs.isEmpty && cs.all isIdentChar &&
    (!cs.all Char.isDigit || cs = ['0'] || cs.head? ≠ some '0')

/-- A build identifier: nonempty identifier characters. -/
def isBuildIdent (cs : List Char) : Bool :=
  !cs.isEmpty && cs.all isIdentChar

/-- Numeric value of a digit string. -/
def digitsToNat (cs : List Char) : Nat :=
  cs.foldl (fun n c => n * 10 + (c.toNat - 48)) 0

/-- Parse one pre-release identifier. -/
def parsePreId (cs : List Char) : Option PreId :=
  if isPreIdent cs then
    if cs.all Char.isDigit then some (.num (digitsToNat cs)) else some (.str ⟨cs⟩)
  else none

/-- Parse the dot-separated pre-release part. -/
def parsePre (cs : List Char) : Option (List PreId) :=
  (splitOnChar '.' cs).mapM parsePreId

/-- Validate the dot-separated build part. -/
def validBuild (cs : List Char) : Bool :=
  (splitOnChar '.' cs).all isBuildIdent

/-- Parse the `major.minor.patch` core. -/
def parseCore (cs : List Char) : Option (Nat × Nat × Nat) :=
  match splitOnChar '.' cs with
  | [a, b, c] =>
      if isNumericIdent a && isNumericIdent b && isNumericIdent c then
        some (digitsToNat a, digitsToNat b, digitsToNat c)
      else none
  | _ => none

/-- Parse the part before any build metadata: `major.minor.patch` with an
optional pre-release part after the first `-`. -/
def parseSemVerCore (cs : List Char) : Option SemVer :=
  match splitOnChar '-' cs with
  | [core] => (parseCore core).map fun (a, b, c) => ⟨a, b, c, []⟩
  | core :: rest =>
      match parseCore core, parsePre (List.intercalate ['-'] rest) with
      | some (a, b, c), some pre => some ⟨a, b, c, pre⟩
      | _, _ => none
  | [] => none

/-- `semver.valid`/parse: optional leading `v`, `major.minor.patch`,
optional `-pre`, optional `+build`.  Returns `none` for invalid input. -/
def parseSemVer (s : String) : Option SemVer :=
  let cs := match s.data with
    | 'v' :: rest => rest
    | cs => cs
  match splitOnChar '+' cs with
  | [core] => parseSemVerCore core
  | [core, b] => if validBuild b then parseSemVerCore core else none
  | _ => none

/-- Compare two pre-release identifiers (numeric below alphanumeric). -/
def cmpPreId : PreId → PreId → Ordering
  | .num a, .num b => compare a b
  | .num _, .str _ => .lt
  | .str _, .num _ => .gt
  | .str a, .str b => compare a b

/-- Compare pre-release identifier lists: identifier by identifier, a
shorter list that is a prefix of a longer one comparing lower. -/
def cmpPreList : List PreId → List PreId → Ordering
  | [], [] => .eq
  | [], _ :: _ => .lt
  | _ :: _, [] => .gt
  | a :: as, b :: bs =>
      match cmpPreId a b with
      | .eq => cmpPreList as bs
      | o => o

/-- SemVer precedence: numeric core, then pre-release (a version without a
pre-release part is above any with one). -/
def cmpSemVer (a b : SemVer) : Ordering :=
  match compare a.major b.major with
  | .eq =>
      match compare a.minor b.minor with
      | .eq =>
          match compare a.patch b.patch with
          | .eq =>
              match a.pre, b.pre with
              | [], [] => .eq
              | [], _ :: _ => .gt
              | _ :: _, [] => .lt
              | p :: ps, q :: qs => cmpPreList (p :: ps) (q :: qs)
          | o => o
      | o => o
  | o => o

/-- `semver.lt` on parsed versions. -/
def semverLt (a b : SemVer) : Bool :=
  cmpSemVer a b = .lt

/-- `semver.lt` on strings; only ever applied to strings that parse. -/
def semverLtStr (a b : String) : Bool :=
  match parseSemVer a, parseSemVer b with
  | some x, some y => semverLt x y
  | _, _ => false

/-- Rank placing the empty pre-release list above all non-empty ones in
SemVer precedence. -/
def preRank (pre : List PreId) : Nat :=
  if pre.isEmpty then 1 else 0

/-- `cmpSemVer` as a lexicographic composition of component comparators;
`cmpSemVer_eq_lex` shows the two agree, which transfers the transitivity
and orientation of the components to `cmpSemVer`. -/
def cmpSemVerLex : SemVer → SemVer → Ordering :=
  compareLex (compareOn SemVer.major) <|
    compareLex (compareOn SemVer.minor) <|
      compareLex (compareOn SemVer.patch) <|
        compareLex (compareOn fun v => preRank v.pre)
          (Ordering.byKey SemVer.pre cmpPreList)

/-- Outcome of `assessSemver`: `{allowed: true}` or
`{allowed: false, message}` in the source. -/
inductive SemverAssessment
  | allowed
  | rejected (message : String)
deriving DecidableEq, Repr

/-- `assessSemver(nextVersion, existing)` from the source.  The expression
`existing.filter(semver.valid).sort(semver.rcompare)[0]` (the maximum of
the valid entries under SemVer precedence) is modelled by a fold computing
that maximum.  `semver.lt` throws `TypeError` when `nextVersion` is not
valid SemVer; that throw is the `.error` case (it is unreachable from
`handlePublishTemplate`, which validates the version first). -/
def assessSemver (nextVersion : String) (existing : List String) :
    Except String SemverAssessment :=
  if nextVersion ∈ existing then
    .ok (.rejected "Version already published")
  else
    match existing.filter (fun v => (parseSemVer v).isSome) with
    | [] => .ok .allowed
    | v :: vs =>
        let latest := vs.foldl (fun best w => if semverLtStr best w then w else best) v
        match parseSemVer nextVersion with
        | some a =>
            match parseSemVer latest with
            | some b =>
                if semverLt a b then
                  .ok (.rejected s!"Version {nextVersion} is lower than latest {latest}")
                else .ok .allowed
            | none => .error "Invalid Version"
        | none => .error "Invalid Version"

/-! ## Data model

The Agent File structure, restricted to the fields the core logic reads.
`hyperparams`, `tools`, `init_messages` and `memory_layout` are opaque
payloads (`unknown` in the source) never inspected by the verified logic
and are omitted.  TypeScript falsiness of a missing/empty string field is
modelled by the empty string. -/

/-- One JSON-Patch operation.  The patch payload is opaque to the source
(it is handed unmodified to the external `fast-json-patch` library), so
only its shape is fixed here. -/
structure PatchOp where
  op : String
  path : String
  value : Option String
deriving DecidableEq, Repr

/-- A migration step: `{type: "json_patch", patch}` or
`{type: "script", script: {code}}`, with an optional description. -/
structure MigrationStep where
  type : String
  description : Option String
  patch : Option (List PatchOp)
  script : Option String
deriving DecidableEq, Repr

/-- A declared migration edge `from -> to` with its ordered steps. -/
structure MigrationSpec where
  «from» : String
  «to» : String
  steps : List MigrationStep
deriving DecidableEq, Repr

/-- `template` block of an Agent File. -/
structure TemplateMeta where
  id : String
  name : String
  version : String
deriving DecidableEq, Repr

/-- `engine` block of an Agent File. -/
structure EngineSpec where
  model : String
  embedding : String
deriving DecidableEq, Repr

/-- `persona` block of an Agent File.  Of `variables_schema` only the
`required` name list is ever read. -/
structure PersonaSpec where
  system_prompt : String
  variables_schema_required : Option (List String)
deriving DecidableEq, Repr

/-- A parsed Agent File, restricted to the fields the core reads. -/
structure AgentFile where
  af_version : String
  template : TemplateMeta
  engine : EngineSpec
  persona : PersonaSpec
  migrations : Option (List MigrationSpec)
deriving DecidableEq, Repr

/-- Result of `validateAgentFile` (the `publishedBy` field is always
`undefined` in the source and is omitted). -/
structure ValidationResult where
  valid : Bool
  errors : List String
deriving DecidableEq, Repr

/-- Errors collected for one declared migration entry. -/
def migrationEntryErrors (m : MigrationSpec) : List String :=
  let mfrom := m.«from»
  let mto := m.«to»
  (if mfrom = "" || mto = "" then
    ["Migration entries must include from and to versions"] else []) ++
  m.steps.foldl (fun acc step =>
    acc ++
    (if step.type = "json_patch" && step.patch.isNone then
      [s!"Migration {mfrom}->{mto} missing patch"] else []) ++
    (if step.type = "script" && step.script.getD "" = "" then
      [s!"Migration {mfrom}->{mto} missing script"] else [])) []

/-- `validateAgentFile` from the source: collects required-field errors,
the SemVer-syntax check on `template.version`, and per-migration checks;
`valid` iff no error. -/
def validateAgentFile (af : AgentFile) : ValidationResult :=
  let errors :=
    (if af.af_version = "" then ["af_version is required"] else []) ++
    (if af.template.id = "" then ["template.id is required"] else []) ++
    (if af.template.version = "" then ["template.version is required"] else []) ++
    (if af.persona.system_prompt = "" then ["persona.system_prompt is required"] else []) ++
    (if af.engine.model = "" then ["engine.model is required"] else []) ++
    (if af.engine.embedding = "" then ["engine.embedding is required"] else []) ++
    (if af.template.version ≠ "" && (parseSemVer af.template.version).isNone then
      [s!"template.version {af.template.version} is not valid SemVer"] else []) ++
    (af.migrations.getD []).foldl (fun acc m => acc ++ migrationEntryErrors m) []
  { valid := errors.isEmpty, errors := errors }

/-- The complete SemVer gate as exercised by `handlePublishTemplate`:
`validateAgentFile` first rejects a `template.version` that is not valid
SemVer (so `assessSemver` is only reached with a syntactically valid
proposal), then `assessSemver` decides duplicate/regressive.  The
`.error` (thrown) branch of `assessSemver` is unreachable here. -/
def publishSemverGate (proposed : String) (existing : List String) :
    SemverAssessment :=
  if (parseSemVer proposed).isNone then
    .rejected s!"template.version {proposed} is not valid SemVer"
  else
    match assessSemver proposed existing with
    | .ok r => r
    | .error e => .rejected e

/-! ## Store state

The relational tables touched by the core, modelled as lists of rows.
Row lookups (`maybeSingle`) are modelled by `List.find?`; the uniqueness
constraints of the schema (`af_versions` primary key `(template_id,
version)`, `request_dedup` primary key `idempotency_key`) make the first
match the unique match in every reachable state. -/

/-- A row of `af_versions`.  `af_source` is the raw request body; since
YAML/JSON parsing is done by external libraries, the parsed `AgentFile` is
carried alongside the raw text and `parseAgentFile(af_source)` is modelled
by the `agentFile` projection. -/
structure VersionRow where
  template_id : String
  version : String
  af_source : String
  checksum : String
  is_latest : Bool
  agentFile : AgentFile
deriving DecidableEq, Repr

/-- A row of `request_dedup`. -/
structure DedupRecord where
  idempotency_key : String
  checksum : String
deriving DecidableEq, Repr

/-- A row of `agent_instances` (the `variables` payload is opaque to the
upgrade logic and omitted). -/
structure AgentInstance where
  agent_id : String
  user_id : String
  template_id : String
  version : String
deriving DecidableEq, Repr

/-- The Letta agent configuration handled by create/upgrade.  The opaque
payload fields (`hyperparams`, `tools`, `init_messages`) are omitted. -/
structure LettaAgentConfig where
  name : Option String
  model : String
  embedding : String
  model_endpoint : String
  embedding_endpoint : String
  system_prompt : String
deriving DecidableEq, Repr

/-- One entry of the dry-run diff (`{op, path, value}` in the source). -/
structure DiffEntry where
  op : String
  path : String
  value : String
deriving DecidableEq, Repr

/-- A row of `agent_migrations` as written by `logMigration`. -/
structure MigrationAttempt where
  agent_id : String
  from_version : String
  to_version : String
  dry_run : Bool
  plan : List MigrationStep
  diff : List DiffEntry
  status : String
deriving DecidableEq, Repr

/-- The payload enqueued by `enqueueUpgradeJob`. -/
structure UpgradeJob where
  agent_id : String
  user_id : String
  from_version : String
  to_version : String
  plan : List MigrationStep
deriving DecidableEq, Repr

/-- The durable state the core reads and writes: the tables and, for the
best-effort collaborators, the storage cache (keyed by `(template_id,
version)`, holding the raw body) and the `upgrade_jobs` queue. -/
structure AmsState where
  templates : List String
  versions : List VersionRow
  instances : List AgentInstance
  migrationLog : List MigrationAttempt
  dedup : List DedupRecord
  queue : List UpgradeJob
  cache : List (String × String × String)
deriving DecidableEq, Repr

/-- The empty store. -/
def AmsState.empty : AmsState := ⟨[], [], [], [], [], [], []⟩

/-- `sha256(content)`.  The hash is modelled as an injective fingerprint
(collisions of SHA-256 are outside the model); nothing in the verified
logic depends on more than determinism and collision-freedom. -/
def sha256 (content : String) : String := content

/-! ## IdempotencyGuard -/

/-- The two `IdempotencyError` messages thrown by `ensureIdempotency`. -/
inductive IdempotencyError
  | conflict
  | duplicate
deriving DecidableEq, Repr

/-- The `message` carried by each `IdempotencyError`. -/
def IdempotencyError.message : IdempotencyError → String
  | .conflict => "Idempotency key re-used with different payload"
  | .duplicate => "Duplicate request"

/-- `ensureIdempotency(key, payloadHashSource)` from the source, acting on
the `request_dedup` table: no key means proceed; an existing record with a
different checksum throws conflict, with the same checksum throws
duplicate; a fresh key inserts a record and proceeds.  `.ok` carries the
updated table. -/
def ensureIdempotency (key : Option String) (payloadHashSource : String)
    (dedup : List DedupRecord) : Except IdempotencyError (List DedupRecord) :=
  match key with
  | none => .ok dedup
  | some k =>
      let checksum := sha256 payloadHashSource
      match dedup.find? (fun r => r.idempotency_key = k) with
      | some r =>
          if r.checksum ≠ checksum then .error .conflict
          else .error .duplicate
      | none => .ok (dedup ++ [⟨k, checksum⟩])

/-! ## VersionStore: resolve -/

/-- Result of `resolveTemplateVersion`: the parsed Agent File and the raw
source. -/
structure ResolvedTemplate where
  template : AgentFile
  raw : String
deriving DecidableEq, Repr

/-- `resolveTemplateVersion(templateId, version?, useLatest)` from the
source: if `version` is supplied the row is selected by `(template_id,
version)` (regardless of `useLatest`); otherwise, if `useLatest`, by
`(template_id, is_latest)`; otherwise it throws
"Either version or use_latest must be provided".  A missing row throws
"Template version not found".  Errors are the thrown messages. -/
def resolveTemplateVersion (versions : List VersionRow) (templateId : String)
    (version : Option String) (useLatest : Bool) :
    Except String ResolvedTemplate :=
  match version with
  | some v =>
      match versions.find? (fun r => r.template_id = templateId && r.version = v) with
      | some row => .ok ⟨row.agentFile, row.af_source⟩
      | none => .error "Template version not found"
  | none =>
      if useLatest then
        match versions.find? (fun r => r.template_id = templateId && r.is_latest) with
        | some row => .ok ⟨row.agentFile, row.af_source⟩
        | none => .error "Template version not found"
      else .error "Either version or use_latest must be provided"

/-! ## MigrationPlanner -/

/-- Outcome of the planner walk.  `fuelOut` is an artefact of the fuelled
embedding of the source's `while` loop; `plan_fuel_sufficient` proves it
unreachable at the fuel used by `buildMigrationPlan`. -/
inductive PlanResult
  | ok (steps : List MigrationStep)
  | circular
  | noPath (version target : String)
  | fuelOut
deriving DecidableEq, Repr

/-- The `while (version !== targetVersion)` loop of `buildMigrationPlan`:
`guard` is the visited set, `acc` the accumulated steps.  Each iteration
checks the visited set, finds the unique outgoing edge of the current
node, appends its steps and advances. -/
def planWalk (migrations : List MigrationSpec) (target : String) :
    Nat → List String → String → List MigrationStep → PlanResult
  | fuel, visited, version, acc =>
      if version = target then .ok acc
      else
        match fuel with
        | 0 => .fuelOut
        | fuel' + 1 =>
            if version ∈ visited then .circular
            else
              match migrations.find? (fun m => m.«from» = version) with
              | none => .noPath version target
              | some m =>
                  planWalk migrations target fuel' (version :: visited) m.«to»
                    (acc ++ m.steps)

/-- `buildMigrationPlan(currentVersion, targetVersion, migrations)` from
the source.  The loop is fuelled with `migrations.length + 1`, which
`plan_fuel_sufficient` shows can never be exhausted. -/
def buildMigrationPlan (currentVersion targetVersion : String)
    (migrations : List MigrationSpec) : PlanResult :=
  planWalk migrations targetVersion (migrations.length + 1) [] currentVersion []

/-- The planner as seen by `handleUpgradeAgent`: failures are the thrown
error messages.  The `fuelOut` artefact is mapped to the circular-path
message; `plan_fuel_sufficient` proves that branch unreachable. -/
def buildMigrationPlanE (currentVersion targetVersion : String)
    (migrations : List MigrationSpec) : Except String (List MigrationStep) :=
  match buildMigrationPlan currentVersion targetVersion migrations with
  | .ok steps => .ok steps
  | .circular => .error "Circular migration plan detected"
  | .noPath v t => .error s!"No migration step found from {v} towards {t}"
  | .fuelOut => .error "Circular migration plan detected"

/-! ## DryRunEngine -/

/-- The billing-proxy endpoint `${ZUPLO_BASE_URL}/api/v1/agents/${userId}/messages`. -/
def zuploEndpoint (zuploBaseUrl userId : String) : String :=
  zuploBaseUrl ++ "/api/v1/agents/" ++ userId ++ "/messages"

/-- The warning text appended for a `script` step. -/
def scriptWarning (step : MigrationStep) : String :=
  s!"Script step executed in dry-run only: " ++ step.description.getD "no description"

/-- Result of `performDryRun`. -/
structure DryRunResult where
  diff : List DiffEntry
  warnings : List String
  updatedConfig : LettaAgentConfig
deriving DecidableEq, Repr

/-- `performDryRun(plan, currentConfig, userId)` from the source.  The
external `fast-json-patch` `applyPatch` call is a parameter (`jsonPatch`):
the dry-run's own logic — step dispatch, warnings, the forced endpoint
override, and which entries are pushed to `diff` — is embedded exactly.
In the source, `diff` receives only the two endpoint-override pushes at
the end; no entry is pushed while iterating over the plan. -/
def performDryRun (jsonPatch : LettaAgentConfig → List PatchOp → LettaAgentConfig)
    (zuploBaseUrl : String) (plan : List MigrationStep)
    (currentConfig : LettaAgentConfig) (userId : String) : DryRunResult :=
  let walk := plan.foldl
    (fun (acc : LettaAgentConfig × List String) step =>
      if step.type = "json_patch" then
        (jsonPatch acc.1 (step.patch.getD []), acc.2)
      else if step.type = "script" then
        (acc.1, acc.2 ++ [scriptWarning step])
      else acc)
    (currentConfig, [])
  let endpoint := zuploEndpoint zuploBaseUrl userId
  let updated := { walk.1 with model_endpoint := endpoint, embedding_endpoint := endpoint }
  { diff := [⟨"set", "/model_endpoint", endpoint⟩, ⟨"set", "/embedding_endpoint", endpoint⟩],
    warnings := walk.2,
    updatedConfig := updated }

/-! ## Audit log -/

/-- `logMigration` from the source: appends an `agent_migrations` row with
status `"dry_run"` for a dry run and `"applied"` otherwise (these are the
only two statuses it ever writes); insert failures are logged and
swallowed, so the success path is the model. -/
def logMigration (st : AmsState) (agentId fromVersion toVersion : String)
    (dryRun : Bool) (plan : List MigrationStep) (diff : List DiffEntry) : AmsState :=
  { st with migrationLog := st.migrationLog ++
      [⟨agentId, fromVersion, toVersion, dryRun, plan, diff,
        if dryRun then "dry_run" else "applied"⟩] }

/-! ## Publish handler -/

/-- The HTTP-level outcome of `handlePublishTemplate`, without the JSON
serialisation.  `internalError` is the catch-all 500 for other thrown
errors. -/
inductive PublishOutcome
  | ok (template_id version checksum : String) (is_latest : Bool)
  | validationFailed (errors : List String)
  | semverRejected (message : String)
  | versionExists
  | idempotencyRejected (e : IdempotencyError)
  | internalError (message : String)
deriving DecidableEq, Repr

/-- `handlePublishTemplate(rawBody, idempotencyKey)` from the source, as a
transition on the store.  `rawBody` arrives together with its parse
`agentFile` (parsing by the external YAML/JSON libraries is not embedded;
a body that fails to parse never reaches this logic).  Order of effects,
as in the source: idempotency guard (inserting the dedup record), content
validation, SemVer gate over the template's existing versions, template
upsert, version insert (unique-violation check on `(template_id,
version)`), clearing `is_latest` on the other versions, best-effort cache
write. -/
def handlePublishTemplate (st : AmsState) (rawBody : String) (agentFile : AgentFile)
    (idempotencyKey : Option String) : PublishOutcome × AmsState :=
  match ensureIdempotency idempotencyKey rawBody st.dedup with
  | .error e => (.idempotencyRejected e, st)
  | .ok dedup1 =>
      let st1 := { st with dedup := dedup1 }
      let validation := validateAgentFile agentFile
      if !validation.valid then (.validationFailed validation.errors, st1)
      else
        let templateId := agentFile.template.id
        let version := agentFile.template.version
        let existing := (st1.versions.filter
          (fun r => r.template_id = templateId)).map (fun r => r.version)
        match assessSemver version existing with
        | .error msg => (.internalError msg, st1)
        | .ok (.rejected msg) => (.semverRejected msg, st1)
        | .ok .allowed =>
            let checksum := sha256 rawBody
            let st2 := { st1 with templates :=
              if templateId ∈ st1.templates then st1.templates
              else st1.templates ++ [templateId] }
            if st2.versions.any (fun r => r.template_id = templateId && r.version = version) then
              (.versionExists, st2)
            else
              let row : VersionRow := ⟨templateId, version, rawBody, checksum, true, agentFile⟩
              let afterInsert := st2.versions ++ [row]
              let afterReset := afterInsert.map (fun r =>
                if r.template_id = templateId && r.version ≠ version then
                  { r with is_latest := false }
                else r)
              let st3 := { st2 with
                versions := afterReset
                cache := st2.cache ++ [(templateId, version, rawBody)] }
              (.ok templateId version checksum true, st3)

/-! ## Upgrade handler -/

/-- The JSON body accepted by `POST /agents/:id/upgrade`; every field is
optional. -/
structure UpgradeAgentInput where
  target_version : Option String
  use_latest : Option Bool
  allow_minor_auto : Option Bool
  dry_run : Option Bool
  use_queue : Option Bool
deriving DecidableEq, Repr

/-- `JSON.stringify({ payload, agentId })`, the idempotency fingerprint
source of the upgrade handler: modelled as a deterministic rendering of
the payload fields and the agent id. -/
def stringifyUpgradeRequest (payload : UpgradeAgentInput) (agentId : String) : String :=
  reprStr (payload, agentId)

/-- The external collaborators of the upgrade path: the Letta agent API
(`fetch`/`update`, either of which can fail with a thrown message) and the
`fast-json-patch` `applyPatch` entry point. -/
structure LettaEnv where
  fetchAgent : String → Except String LettaAgentConfig
  updateAgent : String → LettaAgentConfig → Except String LettaAgentConfig
  jsonPatch : LettaAgentConfig → List PatchOp → LettaAgentConfig

/-- The HTTP-level outcome of `handleUpgradeAgent`.  `internalError` is
the catch-all 500 for thrown errors (missing template version, planner
failures, Letta API failures). -/
inductive UpgradeOutcome
  | idempotencyRejected (e : IdempotencyError)
  | agentNotFound
  | forbidden
  | dryRun (plan : List MigrationStep) (diff : List DiffEntry) (warnings : List String)
  | queued (plan : List MigrationStep)
  | applied (agent : LettaAgentConfig) (plan : List MigrationStep) (diff : List DiffEntry)
  | internalError (message : String)
deriving DecidableEq, Repr

/-- The `agent_instances` version advance performed after a successful
synchronous apply. -/
def updateInstanceVersion (st : AmsState) (agentId newVersion : String) : AmsState :=
  { st with instances := st.instances.map (fun a =>
      if a.agent_id = agentId then { a with version := newVersion } else a) }

/-- The dispatcher stage of `handleUpgradeAgent` (the source's lines from
the `fetchLettaAgent` call to the final response): fetch the live config,
simulate; then `dry_run` (defaulting to `true`) logs a `dry_run` attempt
and returns; otherwise `use_queue` enqueues the job and returns (logging
nothing); otherwise the live config is pushed via the Letta API, the
stored instance version advanced, and an `applied` attempt logged.  A
thrown failure of the update call propagates with no version advance and
no log entry. -/
def upgradeDispatch (env : LettaEnv) (zuploBaseUrl : String) (st1 : AmsState)
    (agentId : String) (payload : UpgradeAgentInput) (agentRecord : AgentInstance)
    (targetVersion : String) (plan : List MigrationStep) :
    UpgradeOutcome × AmsState :=
  match env.fetchAgent agentId with
  | .error msg => (.internalError msg, st1)
  | .ok currentConfig =>
      let dr := performDryRun env.jsonPatch zuploBaseUrl plan
        currentConfig agentRecord.user_id
      if payload.dry_run.getD true then
        let st2 := logMigration st1 agentId agentRecord.version
          targetVersion true plan dr.diff
        (.dryRun plan dr.diff dr.warnings, st2)
      else if payload.use_queue.getD false then
        let st2 := { st1 with queue := st1.queue ++
          [⟨agentId, agentRecord.user_id, agentRecord.version,
            targetVersion, plan⟩] }
        (.queued plan, st2)
      else
        applySync env st1 agentId agentRecord targetVersion plan dr
where
  /-- The synchronous-apply arm: push the simulated config to the live
  agent, and on success advance the stored version and log an `applied`
  attempt; on failure propagate with the state untouched. -/
  applySync (env : LettaEnv) (st1 : AmsState) (agentId : String)
      (agentRecord : AgentInstance) (targetVersion : String)
      (plan : List MigrationStep) (dr : DryRunResult) :
      UpgradeOutcome × AmsState :=
    match env.updateAgent agentId dr.updatedConfig with
    | .error msg => (.internalError msg, st1)
    | .ok applied =>
        let st2 := updateInstanceVersion st1 agentId targetVersion
        let st3 := logMigration st2 agentId agentRecord.version
          targetVersion false plan dr.diff
        (.applied applied plan dr.diff, st3)

/-- `handleUpgradeAgent(agentId, payload, userId, idempotencyKey)` from
the source, as a transition on the store.  Order of effects, as in the
source: idempotency guard, instance lookup (`maybeSingle`), owner check,
target resolution (`use_latest` defaulting to `true`), planning; then the
dispatcher stage `upgradeDispatch`. -/
def handleUpgradeAgent (env : LettaEnv) (zuploBaseUrl : String) (st : AmsState)
    (agentId : String) (payload : UpgradeAgentInput) (userId : Option String)
    (idempotencyKey : Option String) : UpgradeOutcome × AmsState :=
  match ensureIdempotency idempotencyKey (stringifyUpgradeRequest payload agentId) st.dedup with
  | .error e => (.idempotencyRejected e, st)
  | .ok dedup1 =>
      let st1 := { st with dedup := dedup1 }
      match st1.instances.find? (fun a => a.agent_id = agentId) with
      | none => (.agentNotFound, st1)
      | some agentRecord =>
          if (match userId with
              | some u => u != agentRecord.user_id
              | none => false) then
            (.forbidden, st1)
          else
            match resolveTemplateVersion st1.versions agentRecord.template_id
                payload.target_version (payload.use_latest.getD true) with
            | .error msg => (.internalError msg, st1)
            | .ok resolved =>
                let targetVersion := resolved.template.template.version
                match buildMigrationPlanE agentRecord.version targetVersion
                    (resolved.template.migrations.getD []) with
                | .error msg => (.internalError msg, st1)
                | .ok plan =>
                    upgradeDispatch env zuploBaseUrl st1 agentId payload
                      agentRecord targetVersion plan

/-! ## Derived notions used by the statements -/

/-- Whether the planner settled (anything but the fuel artefact). -/
def PlanResult.isSettled : PlanResult → Bool
  | .fuelOut => false
  | _ => true

/-- Outcomes that mutate live state or schedule a mutation. -/
def UpgradeOutcome.isMutation : UpgradeOutcome → Bool
  | .applied _ _ _ => true
  | .queued _ => true
  | _ => false

/-- The stored row for `(template_id, version)`. -/
def getVersionRow (st : AmsState) (templateId version : String) : Option VersionRow :=
  st.versions.find? (fun r => r.template_id = templateId && r.version = version)

/-- At most one `af_versions` row per template carries `is_latest`. -/
def latestInvariant (st : AmsState) : Prop :=
  ∀ tid, st.versions.countP (fun r => r.template_id = tid && r.is_latest) ≤ 1

/-- One publish request: the body together with its parse, and the
optional idempotency key. -/
structure PublishRequest where
  rawBody : String
  agentFile : AgentFile
  idempotencyKey : Option String

/-- Run a sequence of publish requests. -/
def runPublishes (st : AmsState) (reqs : List PublishRequest) : AmsState :=
  reqs.foldl
    (fun s r => (handlePublishTemplate s r.rawBody r.agentFile r.idempotencyKey).2) st

/-! ## Concrete sample values (closed instantiations) -/

/-- A concrete live agent configuration. -/
def sampleConfig : LettaAgentConfig :=
  ⟨none, "gpt-4o", "text-embedding-3-large", "old-endpoint", "old-endpoint", "You are helpful."⟩

/-- A concrete `json_patch` migration step targeting `/system_prompt`. -/
def samplePatchStep : MigrationStep :=
  ⟨"json_patch", none, some [⟨"replace", "/system_prompt", some "You are new."⟩], none⟩

/-- A concrete Agent File at the given version (no migrations). -/
def sampleAgentFile (v : String) : AgentFile :=
  ⟨"1.0", ⟨"tpl", "Tpl", v⟩, ⟨"gpt-4o", "text-embedding-3-large"⟩,
    ⟨"You are helpful.", none⟩, none⟩

/-- A concrete Agent File at `1.0.1` declaring the edge `1.0.0 -> 1.0.1`. -/
def sampleMigratedFile : AgentFile :=
  { sampleAgentFile "1.0.1" with migrations := some [⟨"1.0.0", "1.0.1", [samplePatchStep]⟩] }

/-- A concrete behaviour of the external JSON-Patch library matching
`samplePatchStep`. -/
def sampleJsonPatch : LettaAgentConfig → List PatchOp → LettaAgentConfig :=
  fun c _ => { c with system_prompt := "You are new." }

/-- A Letta API oracle on which every call succeeds. -/
def sampleEnv : LettaEnv :=
  ⟨fun _ => .ok sampleConfig, fun _ _ => .ok sampleConfig, sampleJsonPatch⟩

/-- A store holding template `tpl` at versions `1.0.0` and `1.0.1` (the
latter latest, declaring the migration edge) and one agent at `1.0.0`. -/
def sampleState : AmsState :=
  ⟨["tpl"],
   [⟨"tpl", "1.0.0", "raw-1.0.0", "raw-1.0.0", false, sampleAgentFile "1.0.0"⟩,
    ⟨"tpl", "1.0.1", "raw-1.0.1", "raw-1.0.1", true, sampleMigratedFile⟩],
   [⟨"agent-1", "user-1", "tpl", "1.0.0"⟩], [], [], [], []⟩

/-! ## Theorems -/

/-- Claim C1, counterexample: a dry run over a plan containing a
`json_patch` step (targeting `/system_prompt`) returns a diff consisting
of the two endpoint-override entries only — no patch-derived entry
appears, contrary to the claim that the diff lists one entry per applied
patch operation followed by the override entries. -/
theorem c1_counterexample :
    (performDryRun sampleJsonPatch "https://gw" [samplePatchStep] sampleConfig "u1").diff =
      [⟨"set", "/model_endpoint", "https://gw/api/v1/agents/u1/messages"⟩,
       ⟨"set", "/embedding_endpoint", "https://gw/api/v1/agents/u1/messages"⟩] ∧
    (∀ d ∈ (performDryRun sampleJsonPatch "https://gw" [samplePatchStep]
        sampleConfig "u1").diff, d.path ≠ "/system_prompt") ∧
    samplePatchStep.type = "json_patch" := by
  refine ⟨rfl, ?_, rfl⟩
  decide

/-- Claim C1, amended: for every plan, starting configuration and patch
library behaviour, the diff returned by `performDryRun` consists exactly
of the two forced billing-endpoint override entries (`/model_endpoint`
and `/embedding_endpoint`); patch operations applied by `json_patch`
steps change the simulated configuration but contribute no diff
entries. -/
theorem c1_dry_run_diff_is_override_only
    (jsonPatch : LettaAgentConfig → List PatchOp → LettaAgentConfig)
    (zuploBaseUrl : String) (plan : List MigrationStep)
    (currentConfig : LettaAgentConfig) (userId : String) :
    (performDryRun jsonPatch zuploBaseUrl plan currentConfig userId).diff =
      [⟨"set", "/model_endpoint", zuploEndpoint zuploBaseUrl userId⟩,
       ⟨"set", "/embedding_endpoint", zuploEndpoint zuploBaseUrl userId⟩] := rfl

/-- Claim C3, counterexample: supplying both `version` and
`use_latest = true` does not fail with an ambiguous-selector error — the
call resolves by `version`. -/
theorem c3_counterexample :
    resolveTemplateVersion sampleState.versions "tpl" (some "1.0.0") true =
      .ok ⟨sampleAgentFile "1.0.0", "raw-1.0.0"⟩ := rfl

/-- Claim C3, amended: if neither `version` nor `use_latest = true` is
supplied, `resolveTemplateVersion` fails with the ambiguous-selector
error; if `version` is supplied it takes precedence and `use_latest` is
ignored; a selector matching no row fails with the not-found error. -/
theorem c3_resolve_selector_rules :
    (∀ rows tid, resolveTemplateVersion rows tid none false =
      .error "Either version or use_latest must be provided") ∧
    (∀ rows tid v useLatest, resolveTemplateVersion rows tid (some v) useLatest =
      resolveTemplateVersion rows tid (some v) false) ∧
    (∀ rows tid v useLatest,
      rows.find? (fun r => r.template_id = tid && r.version = v) = none →
      resolveTemplateVersion rows tid (some v) useLatest =
        .error "Template version not found") ∧
    (∀ rows tid,
      rows.find? (fun r => r.template_id = tid && r.is_latest) = none →
      resolveTemplateVersion rows tid none true =
        .error "Template version not found") := by
  refine ⟨fun _ _ => rfl, fun _ _ _ _ => rfl, fun rows tid v ul h => ?_, fun rows tid h => ?_⟩
  · simp [resolveTemplateVersion, h]
  · simp [resolveTemplateVersion, h]

/-- Witness for `c3_resolve_selector_rules` at concrete inputs. -/
theorem c3_resolve_selector_rules_witness :
    resolveTemplateVersion [] "tpl" (some "1.0.0") true =
      .error "Template version not found" :=
  c3_resolve_selector_rules.2.2.1 [] "tpl" "1.0.0" true rfl

/-- The planner walk settles (never exhausts its fuel) whenever the fuel
exceeds the number of migrations not yet visited: every visited node was
matched by a distinct migration, so the walk can take at most
`migrations.length` productive steps. -/
theorem planWalk_settled (migrations : List MigrationSpec) (target : String) :
    ∀ (fuel : Nat) (visited : List String) (version : String) (acc : List MigrationStep),
      visited.Nodup →
      (∀ v ∈ visited, ∃ m ∈ migrations, m.«from» = v) →
      migrations.length < fuel + visited.length →
      (planWalk migrations target fuel visited version acc).isSettled = true := by
  intro fuel
  induction fuel with
  | zero =>
      intro visited version acc hnd hsub hlen
      by_cases h : version = target
      · simp [planWalk, h, PlanResult.isSettled]
      · exfalso
        have hsub' : visited ⊆ migrations.map (fun m => m.«from») := by
          intro v hv
          obtain ⟨m, hm, hfrom⟩ := hsub v hv
          exact hfrom ▸ List.mem_map_of_mem _ hm
        have hle := (hnd.subperm hsub').length_le
        simp only [List.length_map] at hle
        omega
  | succ fuel ih =>
      intro visited version acc hnd hsub hlen
      by_cases h : version = target
      · simp [planWalk, h, PlanResult.isSettled]
      · by_cases hv : version ∈ visited
        · simp [planWalk, h, hv, PlanResult.isSettled]
        · rcases hf : migrations.find? (fun m => m.«from» = version) with _ | m
          · simp [planWalk, h, hv, hf, PlanResult.isSettled]
          · have hstep : planWalk migrations target (fuel + 1) visited version acc =
                planWalk migrations target fuel (version :: visited) m.«to»
                  (acc ++ m.steps) := by
              simp [planWalk, h, hv, hf]
            rw [hstep]
            apply ih
            · exact List.nodup_cons.mpr ⟨hv, hnd⟩
            · intro v hvm
              rcases List.mem_cons.mp hvm with rfl | hvm
              · have hp := List.find?_some hf
                exact ⟨m, List.mem_of_find?_eq_some hf, by simpa using hp⟩
              · exact hsub v hvm
            · simp only [List.length_cons]
              omega

/-- Claim C7: the planner always settles — it returns a step list, a
circular-path failure, or a no-path failure (the fuelled loop never
exhausts its fuel) — and on the two-edge cycle `{A->B, B->A}` the request
`plan(A, C)` fails with the circular-path error. -/
theorem c7_planner_terminates :
    (∀ (currentVersion targetVersion : String) (migrations : List MigrationSpec),
      (buildMigrationPlan currentVersion targetVersion migrations).isSettled = true) ∧
    buildMigrationPlan "A" "C" [⟨"A", "B", []⟩, ⟨"B", "A", []⟩] = .circular := by
  constructor
  · intro cv tv ms
    apply planWalk_settled
    · exact List.nodup_nil
    · simp
    · simp
  · decide

/-- Claim C8: the idempotency guard proceeds when no key is supplied;
a fresh key inserts a dedup record carrying the payload fingerprint and
proceeds; replaying the same key with an identical payload then yields
the duplicate error, and the same key with a differently-fingerprinted
payload yields the conflict error. -/
theorem c8_idempotency_guard :
    (∀ payload dedup, ensureIdempotency none payload dedup = .ok dedup) ∧
    (∀ k payload dedup,
      dedup.find? (fun r => r.idempotency_key = k) = none →
      ensureIdempotency (some k) payload dedup =
        .ok (dedup ++ [⟨k, sha256 payload⟩]) ∧
      ensureIdempotency (some k) payload (dedup ++ [⟨k, sha256 payload⟩]) =
        .error .duplicate) ∧
    (∀ k payload payload2 dedup,
      dedup.find? (fun r => r.idempotency_key = k) = none →
      sha256 payload2 ≠ sha256 payload →
      ensureIdempotency (some k) payload2 (dedup ++ [⟨k, sha256 payload⟩]) =
        .error .conflict) := by
  refine ⟨fun _ _ => rfl, fun k payload dedup h => ⟨?_, ?_⟩, fun k p p2 dedup h hne => ?_⟩
  · simp [ensureIdempotency, h]
  · simp [ensureIdempotency, List.find?_append, h]
  · simp [ensureIdempotency, List.find?_append, h, Ne.symm hne]

/-- Witness for `c8_idempotency_guard` at concrete inputs. -/
theorem c8_idempotency_guard_witness :
    ensureIdempotency (some "K") "p" [] = .ok [⟨"K", sha256 "p"⟩] ∧
    ensureIdempotency (some "K") "p" [⟨"K", sha256 "p"⟩] = .error .duplicate ∧
    ensureIdempotency (some "K") "q" [⟨"K", sha256 "p"⟩] = .error .conflict := by
  refine ⟨(c8_idempotency_guard.2.1 "K" "p" [] rfl).1,
    (c8_idempotency_guard.2.1 "K" "p" [] rfl).2,
    c8_idempotency_guard.2.2 "K" "p" "q" [] rfl (by decide)⟩

/-- Claim C9: when `dry_run` is omitted from the upgrade payload the
handler behaves as a dry run: the stored instances are unchanged, the
outcome is never an applied or queued one, and the result does not depend
on the external update call at all (so the live agent is never
updated). -/
theorem c9_dry_run_defaults_true (env : LettaEnv) (zuploBaseUrl : String)
    (st : AmsState) (agentId : String) (payload : UpgradeAgentInput)
    (userId : Option String) (idempotencyKey : Option String)
    (hdr : payload.dry_run = none) :
    (handleUpgradeAgent env zuploBaseUrl st agentId payload userId
      idempotencyKey).2.instances = st.instances ∧
    (handleUpgradeAgent env zuploBaseUrl st agentId payload userId
      idempotencyKey).1.isMutation = false ∧
    (∀ upd, handleUpgradeAgent { env with updateAgent := upd } zuploBaseUrl st
        agentId payload userId idempotencyKey =
      handleUpgradeAgent env zuploBaseUrl st agentId payload userId
        idempotencyKey) := by
  refine ⟨?_, ?_, ?_⟩
  · unfold handleUpgradeAgent upgradeDispatch
    simp only [hdr, Option.getD_none, if_true]
    repeat' split
    all_goals simp [logMigration]
  · unfold handleUpgradeAgent upgradeDispatch
    simp only [hdr, Option.getD_none, if_true]
    repeat' split
    all_goals simp [UpgradeOutcome.isMutation]
  · intro upd
    unfold handleUpgradeAgent upgradeDispatch
    simp [hdr]

/-- Witness for `c9_dry_run_defaults_true` at concrete inputs. -/
theorem c9_dry_run_defaults_true_witness :
    (handleUpgradeAgent sampleEnv "https://gw" sampleState "agent-1"
      ⟨none, none, none, none, none⟩ (some "user-1") none).2.instances =
      sampleState.instances :=
  (c9_dry_run_defaults_true sampleEnv "https://gw" sampleState "agent-1"
    ⟨none, none, none, none, none⟩ (some "user-1") none rfl).1

/-- Claim C2, counterexample: a queued upgrade (dry_run = false,
use_queue = true) returns the queued outcome and enqueues the job, but
persists no MigrationAttempt at all — in particular none with status
`queued`. -/
theorem c2_counterexample :
    (handleUpgradeAgent sampleEnv "https://gw" sampleState "agent-1"
      ⟨none, none, none, some false, some true⟩ (some "user-1") none).1 =
      .queued [samplePatchStep] ∧
    (handleUpgradeAgent sampleEnv "https://gw" sampleState "agent-1"
      ⟨none, none, none, some false, some true⟩ (some "user-1") none).2.queue ≠ [] ∧
    (handleUpgradeAgent sampleEnv "https://gw" sampleState "agent-1"
      ⟨none, none, none, some false, some true⟩ (some "user-1") none).2.migrationLog
      = [] := by
  refine ⟨rfl, ?_, rfl⟩
  decide

/-- Claim C2, amended: for every upgrade request reaching the dispatcher,
a MigrationAttempt is persisted only on the dry-run and synchronous
success paths — status `dry_run` for a dry run and `applied` on
synchronous success; requesting queued execution enqueues the job and
returns with no MigrationAttempt persisted, and a failure of the external
update call surfaces to the caller with no MigrationAttempt persisted and
no state change (no partial version advancement). -/
theorem c2_audit_record_statuses (env : LettaEnv) (zuploBaseUrl : String)
    (st1 : AmsState) (agentId : String) (payload : UpgradeAgentInput)
    (agentRecord : AgentInstance) (targetVersion : String)
    (plan : List MigrationStep) :
    (∀ p d w, (upgradeDispatch env zuploBaseUrl st1 agentId payload agentRecord
        targetVersion plan).1 = .dryRun p d w →
      (upgradeDispatch env zuploBaseUrl st1 agentId payload agentRecord
        targetVersion plan).2.migrationLog = st1.migrationLog ++
          [⟨agentId, agentRecord.version, targetVersion, true, p, d, "dry_run"⟩]) ∧
    (∀ a p d, (upgradeDispatch env zuploBaseUrl st1 agentId payload agentRecord
        targetVersion plan).1 = .applied a p d →
      (upgradeDispatch env zuploBaseUrl st1 agentId payload agentRecord
        targetVersion plan).2.migrationLog = st1.migrationLog ++
          [⟨agentId, agentRecord.version, targetVersion, false, p, d, "applied"⟩]) ∧
    (∀ p, (upgradeDispatch env zuploBaseUrl st1 agentId payload agentRecord
        targetVersion plan).1 = .queued p →
      (upgradeDispatch env zuploBaseUrl st1 agentId payload agentRecord
        targetVersion plan).2.migrationLog = st1.migrationLog ∧
      (upgradeDispatch env zuploBaseUrl st1 agentId payload agentRecord
        targetVersion plan).2.queue = st1.queue ++
          [⟨agentId, agentRecord.user_id, agentRecord.version, targetVersion, p⟩]) ∧
    (∀ m, (upgradeDispatch env zuploBaseUrl st1 agentId payload agentRecord
        targetVersion plan).1 = .internalError m →
      (upgradeDispatch env zuploBaseUrl st1 agentId payload agentRecord
        targetVersion plan).2 = st1) := by
  have hsync : ∀ dr, (∃ msg,
        upgradeDispatch.applySync env st1 agentId agentRecord targetVersion plan dr =
          (.internalError msg, st1)) ∨
      ∃ ag, upgradeDispatch.applySync env st1 agentId agentRecord targetVersion plan dr =
        (.applied ag plan dr.diff,
          logMigration (updateInstanceVersion st1 agentId targetVersion) agentId
            agentRecord.version targetVersion false plan dr.diff) := by
    intro dr
    cases hu : env.updateAgent agentId dr.updatedConfig with
    | error msg => exact .inl ⟨msg, by simp [upgradeDispatch.applySync, hu]⟩
    | ok ag => exact .inr ⟨ag, by simp [upgradeDispatch.applySync, hu]⟩
  unfold upgradeDispatch
  repeat' split
  all_goals try (rcases hsync _ with ⟨msg, he⟩ | ⟨ag, he⟩ <;> rw [he])
  all_goals refine ⟨fun p d w h => ?_, fun a p d h => ?_, fun p h => ?_, fun m h => ?_⟩
  all_goals clear hsync
  all_goals try simp_all [logMigration, updateInstanceVersion]
  all_goals first
    | (obtain ⟨rfl, h2, h3⟩ := h; exact h2)
    | (obtain ⟨rfl, rfl, h3⟩ := h; exact h3)

/-- Witness for `c2_audit_record_statuses` at concrete inputs. -/
theorem c2_audit_record_statuses_witness :
    (upgradeDispatch sampleEnv "https://gw" sampleState "agent-1"
      ⟨none, none, none, some false, some true⟩ ⟨"agent-1", "user-1", "tpl", "1.0.0"⟩
      "1.0.1" [samplePatchStep]).2.migrationLog = sampleState.migrationLog :=
  ((c2_audit_record_statuses sampleEnv "https://gw" sampleState "agent-1"
    ⟨none, none, none, some false, some true⟩ ⟨"agent-1", "user-1", "tpl", "1.0.0"⟩
    "1.0.1" [samplePatchStep]).2.2.1 [samplePatchStep] rfl).1

/-- Claim C10: the dedup record for an idempotency key is inserted by the
guard before the publish request is validated, so a keyed request whose
processing fails at validation nevertheless inserts the record (with no
effect on the stored versions), and an identical retry with the same key
is then rejected as a duplicate request. -/
theorem c10_dedup_inserted_before_validation (st : AmsState) (rawBody : String)
    (agentFile : AgentFile) (k : String)
    (hfresh : st.dedup.find? (fun r => r.idempotency_key = k) = none)
    (hinvalid : (validateAgentFile agentFile).valid = false) :
    (handlePublishTemplate st rawBody agentFile (some k)).1 =
      .validationFailed (validateAgentFile agentFile).errors ∧
    (handlePublishTemplate st rawBody agentFile (some k)).2.dedup =
      st.dedup ++ [⟨k, sha256 rawBody⟩] ∧
    (handlePublishTemplate st rawBody agentFile (some k)).2.versions = st.versions ∧
    handlePublishTemplate (handlePublishTemplate st rawBody agentFile (some k)).2
        rawBody agentFile (some k) =
      (.idempotencyRejected .duplicate,
        (handlePublishTemplate st rawBody agentFile (some k)).2) := by
  have hguard : ensureIdempotency (some k) rawBody st.dedup =
      .ok (st.dedup ++ [⟨k, sha256 rawBody⟩]) := by
    simp [ensureIdempotency, hfresh]
  have h1 : handlePublishTemplate st rawBody agentFile (some k) =
      (.validationFailed (validateAgentFile agentFile).errors,
        { st with dedup := st.dedup ++ [⟨k, sha256 rawBody⟩] }) := by
    unfold handlePublishTemplate
    rw [hguard]
    simp [hinvalid]
  have hguard2 : ensureIdempotency (some k) rawBody
      (st.dedup ++ [⟨k, sha256 rawBody⟩]) = .error .duplicate := by
    simp [ensureIdempotency, List.find?_append, hfresh]
  refine ⟨by rw [h1], by rw [h1], by rw [h1], ?_⟩
  rw [h1]
  unfold handlePublishTemplate
  rw [show ({ st with dedup := st.dedup ++ [⟨k, sha256 rawBody⟩] } : AmsState).dedup =
    st.dedup ++ [⟨k, sha256 rawBody⟩] from rfl, hguard2]

/-- Witness for `c10_dedup_inserted_before_validation` at concrete
inputs (a template version that is not valid SemVer). -/
theorem c10_dedup_inserted_before_validation_witness :
    (handlePublishTemplate AmsState.empty "rawX" (sampleAgentFile "notsemver")
      (some "K")).2.dedup = [⟨"K", sha256 "rawX"⟩] ∧
    handlePublishTemplate (handlePublishTemplate AmsState.empty "rawX"
        (sampleAgentFile "notsemver") (some "K")).2 "rawX"
        (sampleAgentFile "notsemver") (some "K") =
      (.idempotencyRejected .duplicate,
        (handlePublishTemplate AmsState.empty "rawX" (sampleAgentFile "notsemver")
          (some "K")).2) := by
  have h := c10_dedup_inserted_before_validation AmsState.empty "rawX"
    (sampleAgentFile "notsemver") "K" rfl (by decide)
  exact ⟨h.2.1, h.2.2.2⟩

/-- The successful publish path in closed form: with no idempotency key,
valid content, the SemVer gate allowing, and no stored row for the pair,
the handler returns the success response and inserts the new row with
`is_latest` set while clearing `is_latest` on the template's other
rows. -/
theorem handlePublishTemplate_success (st : AmsState) (raw1 : String)
    (af1 : AgentFile)
    (hv1 : (validateAgentFile af1).valid = true)
    (hallow : assessSemver af1.template.version
      ((st.versions.filter (fun r => r.template_id = af1.template.id)).map
        (fun r => r.version)) = .ok .allowed)
    (hfresh : ∀ r ∈ st.versions,
      ¬(r.template_id = af1.template.id ∧ r.version = af1.template.version)) :
    handlePublishTemplate st raw1 af1 none =
      (.ok af1.template.id af1.template.version (sha256 raw1) true,
       { st with
         templates := if af1.template.id ∈ st.templates then st.templates
           else st.templates ++ [af1.template.id],
         versions := ((st.versions ++ [(⟨af1.template.id, af1.template.version,
             raw1, sha256 raw1, true, af1⟩ : VersionRow)]).map (fun r =>
           if r.template_id = af1.template.id && r.version ≠ af1.template.version
           then { r with is_latest := false } else r)),
         cache := st.cache ++ [(af1.template.id, af1.template.version, raw1)] }) := by
  have hany : (st.versions.any (fun r => r.template_id = af1.template.id &&
      r.version = af1.template.version)) = false := by
    simp only [List.any_eq_false]
    intro r hr
    have := hfresh r hr
    simp_all
  unfold handlePublishTemplate
  simp only [ensureIdempotency, hv1, Bool.not_true, if_false, hallow, hany]
  simp

/-- Claim C4: publishing a `(template_id, version)` pair twice — valid
content both times, the gate allowing the first — has the first publish
succeed and store the body with its checksum, the second attempt (same
pair, arbitrary content) fail with the duplicate-version rejection, and
the stored row for the pair unchanged by the second attempt. -/
theorem c4_publish_twice_immutable (st : AmsState) (raw1 raw2 : String)
    (af1 af2 : AgentFile)
    (hid : af2.template.id = af1.template.id)
    (hver : af2.template.version = af1.template.version)
    (hv1 : (validateAgentFile af1).valid = true)
    (hv2 : (validateAgentFile af2).valid = true)
    (hallow : assessSemver af1.template.version
      ((st.versions.filter (fun r => r.template_id = af1.template.id)).map
        (fun r => r.version)) = .ok .allowed)
    (hfresh : ∀ r ∈ st.versions,
      ¬(r.template_id = af1.template.id ∧ r.version = af1.template.version)) :
    (handlePublishTemplate st raw1 af1 none).1 =
      .ok af1.template.id af1.template.version (sha256 raw1) true ∧
    getVersionRow (handlePublishTemplate st raw1 af1 none).2
        af1.template.id af1.template.version =
      some ⟨af1.template.id, af1.template.version, raw1, sha256 raw1, true, af1⟩ ∧
    (handlePublishTemplate (handlePublishTemplate st raw1 af1 none).2 raw2 af2 none).1 =
      .semverRejected "Version already published" ∧
    getVersionRow (handlePublishTemplate (handlePublishTemplate st raw1 af1 none).2
        raw2 af2 none).2 af1.template.id af1.template.version =
      getVersionRow (handlePublishTemplate st raw1 af1 none).2
        af1.template.id af1.template.version := by
  have h1 := handlePublishTemplate_success st raw1 af1 hv1 hallow hfresh
  set row : VersionRow :=
    ⟨af1.template.id, af1.template.version, raw1, sha256 raw1, true, af1⟩ with hrowdef
  set stF : AmsState :=
      { st with
        templates := if af1.template.id ∈ st.templates then st.templates
          else st.templates ++ [af1.template.id],
        versions := ((st.versions ++ [row]).map (fun r =>
          if r.template_id = af1.template.id && r.version ≠ af1.template.version
          then { r with is_latest := false } else r)),
        cache := st.cache ++ [(af1.template.id, af1.template.version, raw1)] } with hstF
  have hrow : getVersionRow stF af1.template.id af1.template.version = some row := by
    unfold getVersionRow
    rw [hstF]
    simp only [List.map_append, List.find?_append]
    have hold : ((st.versions.map (fun r =>
        if r.template_id = af1.template.id && r.version ≠ af1.template.version
        then { r with is_latest := false } else r)).find? (fun r =>
          r.template_id = af1.template.id && r.version = af1.template.version)) = none := by
      simp only [List.find?_eq_none, List.mem_map]
      rintro x ⟨r0, hr0, rfl⟩
      have hnf := hfresh r0 hr0
      split <;> simp_all
    rw [hold]
    simp [hrowdef]
  have hmemF : row ∈ stF.versions := by
    rw [hstF]
    simp only [List.map_append, List.mem_append, List.mem_map]
    right
    simp
  have hmem2 : af2.template.version ∈
      ((stF.versions.filter (fun r => r.template_id = af2.template.id)).map
        (fun r => r.version)) := by
    rw [hid, hver]
    exact List.mem_map.mpr ⟨row, List.mem_filter.mpr ⟨hmemF, by simp [hrowdef]⟩,
      by simp [hrowdef]⟩
  have hassess2 : assessSemver af2.template.version
      ((stF.versions.filter (fun r => r.template_id = af2.template.id)).map
        (fun r => r.version)) = .ok (.rejected "Version already published") := by
    unfold assessSemver
    rw [if_pos hmem2]
  have h2 : handlePublishTemplate stF raw2 af2 none =
      (.semverRejected "Version already published", stF) := by
    unfold handlePublishTemplate
    simp only [ensureIdempotency, hv2, Bool.not_true, if_false, hassess2]
    simp [hstF]
  rw [h1]
  exact ⟨rfl, hrow, by rw [h2], by rw [h2]⟩

/-- Witness for `c4_publish_twice_immutable` at concrete inputs. -/
theorem c4_publish_twice_immutable_witness :
    (handlePublishTemplate AmsState.empty "raw-a" (sampleAgentFile "1.0.0") none).1 =
      .ok "tpl" "1.0.0" (sha256 "raw-a") true ∧
    (handlePublishTemplate (handlePublishTemplate AmsState.empty "raw-a"
        (sampleAgentFile "1.0.0") none).2 "raw-b" (sampleAgentFile "1.0.0") none).1 =
      .semverRejected "Version already published" := by
  have h := c4_publish_twice_immutable AmsState.empty "raw-a" "raw-b"
    (sampleAgentFile "1.0.0") (sampleAgentFile "1.0.0") rfl rfl (by decide) (by decide)
    rfl (by simp [AmsState.empty])
  exact ⟨h.1, h.2.2.1⟩


/-- Counting helper for the `is_latest` invariant: inserting a fresh row
with `is_latest` set and clearing the flag on every other row of the same
template leaves at most one flagged row per template. -/
theorem countP_reset_le_one (tid afid v : String) (old : List VersionRow)
    (row : VersionRow) (hrowt : row.template_id = afid) (hrowv : row.version = v)
    (hold : ∀ r ∈ old, ¬(r.template_id = afid ∧ r.version = v))
    (hinv : old.countP (fun r => r.template_id = tid && r.is_latest) ≤ 1) :
    ((old ++ [row]).map (fun r =>
        if r.template_id = afid && r.version ≠ v then { r with is_latest := false }
        else r)).countP (fun r => r.template_id = tid && r.is_latest) ≤ 1 := by
  rw [List.map_append, List.countP_append]
  by_cases htid : afid = tid
  · subst htid
    have hz : ((old.map (fun r =>
        if r.template_id = afid && r.version ≠ v then { r with is_latest := false }
        else r)).countP (fun r => r.template_id = afid && r.is_latest)) = 0 := by
      rw [List.countP_eq_zero]
      intro x hx
      obtain ⟨r, hr, rfl⟩ := List.mem_map.mp hx
      have hnr := hold r hr
      split
      · simp
      · rename_i hcond
        simp only [Bool.and_eq_true, decide_eq_true_eq, not_and, Bool.not_eq_true,
          decide_eq_false_iff_not, not_not] at hcond
        have ht : ¬ r.template_id = afid := fun he => hnr ⟨he, hcond he⟩
        simp [ht]
    rw [hz]
    simpa using List.countP_le_length
      (p := fun r => r.template_id = afid && r.is_latest)
      (l := [row].map (fun r =>
        if r.template_id = afid && r.version ≠ v then { r with is_latest := false }
        else r))
  · have hcongr : ((old.map (fun r =>
        if r.template_id = afid && r.version ≠ v then { r with is_latest := false }
        else r)).countP (fun r => r.template_id = tid && r.is_latest)) =
        old.countP (fun r => r.template_id = tid && r.is_latest) := by
      rw [List.countP_map]
      apply List.countP_congr
      intro r hr
      dsimp only [Function.comp]
      split
      · rename_i hcond
        simp only [Bool.and_eq_true, decide_eq_true_eq] at hcond
        have : ¬ r.template_id = tid := by
          rw [hcond.1]
          exact htid
        simp [this]
      · exact Iff.rfl
    have hrowp : ([row].map (fun r =>
        if r.template_id = afid && r.version ≠ v then { r with is_latest := false }
        else r)).countP (fun r => r.template_id = tid && r.is_latest) = 0 := by
      have hne : ¬ row.template_id = tid := by
        rw [hrowt]
        exact htid
      simp [hrowv, hne]
    rw [hcongr, hrowp]
    omega

/-- One publish preserves the at-most-one-`is_latest` invariant: failure
paths leave the versions untouched, and the success path inserts the new
flagged row only after the duplicate guard ensured no stored row carries
the same `(template_id, version)`, then clears the flag on every other
row of the template. -/
theorem latestInvariant_publish (st : AmsState) (raw : String) (af : AgentFile)
    (key : Option String) (hinv : latestInvariant st) :
    latestInvariant (handlePublishTemplate st raw af key).2 := by
  unfold handlePublishTemplate
  cases h1 : ensureIdempotency key raw st.dedup with
  | error e => exact hinv
  | ok dedup1 =>
    by_cases hval : (validateAgentFile af).valid
    · simp only [hval, Bool.not_true, if_false]
      cases h2 : assessSemver af.template.version
          ((({ st with dedup := dedup1 } : AmsState).versions.filter
            (fun r => r.template_id = af.template.id)).map (fun r => r.version)) with
      | error m => exact hinv
      | ok a =>
        cases a with
        | rejected m => exact hinv
        | allowed =>
          by_cases hex : (({ st with dedup := dedup1 } : AmsState).versions.any
              (fun r => r.template_id = af.template.id &&
                r.version = af.template.version)) = true
          · simp only [hex, if_true]
            exact hinv
          · simp only [hex, if_false]
            intro tid
            refine countP_reset_le_one tid af.template.id af.template.version
              st.versions _ rfl rfl ?_ (hinv tid)
            intro r hr
            rw [List.any_eq_true] at hex
            push_neg at hex
            have := hex r hr
            simp_all
    · have hvf : (validateAgentFile af).valid = false := by
        simpa using hval
      simp only [hvf, Bool.not_false, if_true]
      exact hinv

/-- Claim C5: starting from the empty store, after any finite sequence of
publish requests at most one stored version of each template has
`is_latest = true`. -/
theorem c5_at_most_one_latest (reqs : List PublishRequest) :
    latestInvariant (runPublishes AmsState.empty reqs) := by
  have hstep : ∀ (reqs : List PublishRequest) (st : AmsState), latestInvariant st →
      latestInvariant (runPublishes st reqs) := by
    intro reqs
    induction reqs with
    | nil => intro st h; exact h
    | cons r rs ih =>
        intro st h
        exact ih _ (latestInvariant_publish st r.rawBody r.agentFile r.idempotencyKey h)
  exact hstep reqs AmsState.empty (fun _ => Nat.zero_le 1)

/-- Orientation of `cmpPreId`, with the comparator explicit. -/
theorem cmpPreId_symm (x y : PreId) : (cmpPreId x y).swap = cmpPreId y x := by
  cases x <;> cases y <;> simp only [cmpPreId]
  · exact Nat.compare_swap _ _
  · rfl
  · rfl
  · exact Batteries.OrientedCmp.symm _ _

instance : Batteries.OrientedCmp cmpPreId where
  symm := cmpPreId_symm

instance : Batteries.TransCmp cmpPreId where
  le_trans {x y z} h1 h2 := by
    cases x <;> cases y <;> cases z <;>
      simp only [cmpPreId] at h1 h2 ⊢ <;>
      first
        | exact Batteries.TransCmp.le_trans h1 h2
        | simp_all

theorem cmpPreList_symm : ∀ (x y : List PreId), (cmpPreList x y).swap = cmpPreList y x
  | [], [] => rfl
  | [], _ :: _ => rfl
  | _ :: _, [] => rfl
  | a :: as, b :: bs => by
      simp only [cmpPreList]
      rw [← cmpPreId_symm a b]
      rw [← cmpPreList_symm as bs]
      cases cmpPreId a b <;> rfl

instance : Batteries.OrientedCmp cmpPreList where
  symm := cmpPreList_symm

theorem cmpPreList_le_trans : ∀ {x y z : List PreId}, cmpPreList x y ≠ .gt →
    cmpPreList y z ≠ .gt → cmpPreList x z ≠ .gt
  | [], y, z, _, _ => by
      cases z <;> simp [cmpPreList]
  | _ :: _, [], _, h1, _ => by
      simp [cmpPreList] at h1
  | _ :: _, _ :: _, [], _, h2 => by
      simp [cmpPreList] at h2
  | a :: as, b :: bs, c :: cs, h1, h2 => by
      simp only [cmpPreList] at h1 h2 ⊢
      cases hab : cmpPreId a b with
      | gt => rw [hab] at h1; simp at h1
      | lt =>
          cases hbc : cmpPreId b c with
          | gt => rw [hbc] at h2; simp at h2
          | lt =>
              have hac := Batteries.TransCmp.lt_trans hab hbc
              rw [hac]
              simp
          | eq =>
              have hac : cmpPreId a c = .lt := by
                rw [← Batteries.TransCmp.cmp_congr_right hbc]
                exact hab
              rw [hac]
              simp
      | eq =>
          cases hbc : cmpPreId b c with
          | gt => rw [hbc] at h2; simp at h2
          | lt =>
              have hac : cmpPreId a c = .lt := by
                rw [Batteries.TransCmp.cmp_congr_left hab]
                exact hbc
              rw [hac]
              simp
          | eq =>
              have hac : cmpPreId a c = .eq := by
                rw [Batteries.TransCmp.cmp_congr_left hab]
                exact hbc
              rw [hab] at h1
              rw [hbc] at h2
              rw [hac]
              exact cmpPreList_le_trans h1 h2

instance : Batteries.TransCmp cmpPreList where
  le_trans := cmpPreList_le_trans


theorem cmpSemVer_eq_lex : cmpSemVer = cmpSemVerLex := by
  funext a b
  unfold cmpSemVer cmpSemVerLex
  simp only [compareLex, compareOn, Ordering.byKey]
  cases compare a.major b.major <;> cases compare a.minor b.minor <;>
    cases compare a.patch b.patch <;>
      rcases ha : a.pre with _ | ⟨p, ps⟩ <;> rcases hb : b.pre with _ | ⟨q, qs⟩ <;>
        rfl

instance : Batteries.TransCmp cmpSemVer := by
  rw [cmpSemVer_eq_lex]
  unfold cmpSemVerLex
  infer_instance


theorem cmpSemVer_refl (a : SemVer) : cmpSemVer a a = .eq :=
  Batteries.OrientedCmp.cmp_refl

theorem semverLt_irrefl (a : SemVer) : semverLt a a = false := by
  simp [semverLt, cmpSemVer_refl]

theorem semverLt_trans {a b c : SemVer} (h1 : semverLt a b = true)
    (h2 : semverLt b c = true) : semverLt a c = true := by
  simp only [semverLt, decide_eq_true_eq] at h1 h2 ⊢
  exact Batteries.TransCmp.lt_trans h1 h2

theorem semverLt_ge_trans {a b c : SemVer} (h1 : semverLt a b = false)
    (h2 : semverLt b c = false) : semverLt a c = false := by
  simp only [semverLt, decide_eq_false_iff_not] at h1 h2 ⊢
  exact Batteries.TransCmp.ge_trans h1 h2

theorem semverLtStr_irrefl (a : String) : semverLtStr a a = false := by
  unfold semverLtStr
  cases parseSemVer a <;> simp [semverLt_irrefl]

theorem semverLtStr_lt_trans {a b c : String} (h1 : semverLtStr a b = true)
    (h2 : semverLtStr b c = true) : semverLtStr a c = true := by
  unfold semverLtStr at h1 h2 ⊢
  cases ha : parseSemVer a <;> cases hb : parseSemVer b <;> cases hc : parseSemVer c <;>
    rw [ha, hb] at h1 <;> rw [hb, hc] at h2 <;> simp_all
  exact semverLt_trans h1 h2

theorem semverLtStr_ge_trans {a b c : String}
    (pb : (parseSemVer b).isSome)
    (h1 : semverLtStr a b = false) (h2 : semverLtStr b c = false) :
    semverLtStr a c = false := by
  unfold semverLtStr at h1 h2 ⊢
  cases ha : parseSemVer a <;> cases hb : parseSemVer b <;> cases hc : parseSemVer c <;>
    rw [ha, hb] at h1 <;> rw [hb, hc] at h2 <;> simp_all
  exact semverLt_ge_trans h1 h2

theorem foldLatest_mem (v : String) (vs : List String) :
    vs.foldl (fun best w => if semverLtStr best w then w else best) v ∈ v :: vs := by
  induction vs generalizing v with
  | nil => simp
  | cons u us ih =>
      simp only [List.foldl_cons]
      by_cases h : semverLtStr v u
      · simp only [h, if_true]
        have := ih u
        simp only [List.mem_cons] at this ⊢
        tauto
      · simp only [h, if_false]
        have := ih v
        simp only [List.mem_cons] at this ⊢
        tauto

theorem foldLatest_max (v : String) (vs : List String)
    (hv : (parseSemVer v).isSome) (hvs : ∀ w ∈ vs, (parseSemVer w).isSome) :
    ∀ w ∈ v :: vs,
      semverLtStr (vs.foldl (fun best w => if semverLtStr best w then w else best) v) w
        = false := by
  induction vs generalizing v with
  | nil =>
      intro w hw
      simp only [List.foldl_nil]
      rcases List.mem_cons.mp hw with rfl | h
      · exact semverLtStr_irrefl w
      · cases h
  | cons u us ih =>
      intro w hw
      simp only [List.foldl_cons]
      have hu : (parseSemVer u).isSome := hvs u (List.mem_cons_self u us)
      have hus : ∀ x ∈ us, (parseSemVer x).isSome :=
        fun x hx => hvs x (List.mem_cons_of_mem u hx)
      by_cases h : semverLtStr v u
      · simp only [h, if_true]
        have hmax := ih u hu hus
        rcases List.mem_cons.mp hw with rfl | hw'
        · have h1 : semverLtStr
              (us.foldl (fun best w => if semverLtStr best w then w else best) u) u
              = false := hmax u (List.mem_cons_self u us)
          by_contra hcon
          rw [Bool.not_eq_false] at hcon
          rw [semverLtStr_lt_trans hcon h] at h1
          cases h1
        · exact hmax w hw'
      · simp only [h, if_false]
        have hmax := ih v hv hus
        rcases List.mem_cons.mp hw with rfl | hw'
        · exact hmax w (List.mem_cons_self w us)
        · rcases List.mem_cons.mp hw' with rfl | hw''
          · have h1 : semverLtStr
                (us.foldl (fun best w => if semverLtStr best w then w else best) v) v
                = false := hmax v (List.mem_cons_self v us)
            have hfp : (parseSemVer
                (us.foldl (fun best w => if semverLtStr best w then w else best) v)).isSome := by
              rcases List.mem_cons.mp (foldLatest_mem v us) with he | hm
              · rw [he]; exact hv
              · exact hus _ hm
            exact semverLtStr_ge_trans hv h1 (by simpa using h)
          · exact hmax w (List.mem_cons_of_mem v hw'')


/-- Claim C6: the publish-time SemVer gate applies its rules in order —
a syntactically invalid proposal is rejected first; a proposal already
present among the existing versions is rejected as a duplicate; a valid,
fresh proposal lower (under SemVer precedence) than a maximal valid
existing entry is rejected as regressive against that maximum, while one
not lower is allowed; entries that are not valid SemVer are ignored and
never block.  The three concrete examples of the spec are evaluated. -/
theorem c6_semver_gate_rules :
    (∀ p e, parseSemVer p = none →
      publishSemverGate p e = .rejected s!"template.version {p} is not valid SemVer") ∧
    (∀ p e (a : SemVer), parseSemVer p = some a → p ∈ e →
      publishSemverGate p e = .rejected "Version already published") ∧
    (∀ p e (a : SemVer), parseSemVer p = some a → p ∉ e →
      (∀ w ∈ e, parseSemVer w = none) → publishSemverGate p e = .allowed) ∧
    (∀ p e a m pm, parseSemVer p = some a → p ∉ e → m ∈ e → parseSemVer m = some pm →
      (∀ w ∈ e, ∀ pw, parseSemVer w = some pw → semverLt pm pw = false) →
      (semverLt a pm = true →
        ∃ latest pl, latest ∈ e ∧ parseSemVer latest = some pl ∧
          cmpSemVer pl pm = .eq ∧
          publishSemverGate p e =
            .rejected s!"Version {p} is lower than latest {latest}") ∧
      (semverLt a pm = false → publishSemverGate p e = .allowed)) ∧
    publishSemverGate "1.2.0" ["1.3.0"] =
      .rejected "Version 1.2.0 is lower than latest 1.3.0" ∧
    publishSemverGate "1.4.0" ["1.3.0"] = .allowed ∧
    publishSemverGate "2.0.0-rc.1" [] = .allowed := by
  refine ⟨?_, ?_, ?_, ?_, rfl, rfl, rfl⟩
  · intro p e hp
    simp [publishSemverGate, hp]
  · intro p e a hp hmem
    simp [publishSemverGate, assessSemver, hp, hmem]
  · intro p e a hp hpe hall
    have hfil : e.filter (fun v => (parseSemVer v).isSome) = [] := by
      rw [List.filter_eq_nil_iff]
      intro w hw
      simp [hall w hw]
    simp [publishSemverGate, assessSemver, hp, hpe, hfil]
  · intro p e a m pm hp hpe hm hpm hmax
    have hmfil : m ∈ e.filter (fun v => (parseSemVer v).isSome) :=
      List.mem_filter.mpr ⟨hm, by simp [hpm]⟩
    rcases hfe : e.filter (fun v => (parseSemVer v).isSome) with _ | ⟨v, vs⟩
    · rw [hfe] at hmfil
      cases hmfil
    · set latest := vs.foldl (fun best w => if semverLtStr best w then w else best) v
        with hlatest
      have hval : ∀ w ∈ v :: vs, (parseSemVer w).isSome := by
        intro w hw
        have hw' : w ∈ e.filter (fun v => (parseSemVer v).isSome) := by
          rw [hfe]
          exact hw
        simpa using (List.mem_filter.mp hw').2
      have hlmem : latest ∈ v :: vs := foldLatest_mem v vs
      have hlval : (parseSemVer latest).isSome := hval latest hlmem
      obtain ⟨pl, hpl⟩ := Option.isSome_iff_exists.mp hlval
      have hlmax : ∀ w ∈ v :: vs, semverLtStr latest w = false :=
        foldLatest_max v vs (hval v (List.mem_cons_self v vs))
          (fun x hx => hval x (List.mem_cons_of_mem v hx))
      have hm' : m ∈ v :: vs := by
        rw [← hfe]
        exact hmfil
      have hle : latest ∈ e := by
        have hlf : latest ∈ e.filter (fun v => (parseSemVer v).isSome) := by
          rw [hfe]
          exact hlmem
        exact (List.mem_filter.mp hlf).1
      have h1 : semverLt pl pm = false := by
        have hh := hlmax m hm'
        simpa [semverLtStr, hpl, hpm] using hh
      have h2 : semverLt pm pl = false := hmax latest hle pl hpl
      have heq : cmpSemVer pl pm = .eq := by
        simp only [semverLt, decide_eq_false_iff_not] at h1 h2
        have h2' : cmpSemVer pl pm ≠ .gt :=
          fun hg => h2 (Batteries.OrientedCmp.cmp_eq_gt.mp hg)
        cases hc : cmpSemVer pl pm <;> simp_all
      constructor
      · intro hlt
        have hlt' : semverLt a pl = true := by
          simp only [semverLt, decide_eq_true_eq] at hlt ⊢
          rw [Batteries.TransCmp.cmp_congr_right heq]
          exact hlt
        refine ⟨latest, pl, hle, hpl, heq, ?_⟩
        unfold publishSemverGate assessSemver
        rw [hfe]
        simp [hp, hpe, ← hlatest, hpl, hlt']
      · intro hge
        have hge' : semverLt a pl = false := by
          simp only [semverLt, decide_eq_false_iff_not] at hge ⊢
          rw [Batteries.TransCmp.cmp_congr_right heq]
          exact hge
        unfold publishSemverGate assessSemver
        rw [hfe]
        simp [hp, hpe, ← hlatest, hpl, hge']

/-- Witness for `c6_semver_gate_rules` at concrete inputs. -/
theorem c6_semver_gate_rules_witness :
    publishSemverGate "abc" ["1.0.0"] =
      .rejected "template.version abc is not valid SemVer" ∧
    publishSemverGate "1.3.0" ["1.3.0"] = .rejected "Version already published" ∧
    publishSemverGate "1.0.0" ["junk"] = .allowed ∧
    publishSemverGate "1.4.0" ["junk", "1.3.0"] = .allowed := by
  have h := c6_semver_gate_rules
  have hmaxfact : ∀ w ∈ ["junk", "1.3.0"], ∀ pw : SemVer,
      parseSemVer w = some pw → semverLt ⟨1, 3, 0, []⟩ pw = false := by
    intro w hw pw hpw
    rcases List.mem_cons.mp hw with rfl | hw2
    · rw [show parseSemVer "junk" = none from rfl] at hpw
      cases hpw
    · rcases List.mem_cons.mp hw2 with rfl | hw3
      · rw [show parseSemVer "1.3.0" = some ⟨1, 3, 0, []⟩ from rfl] at hpw
        injection hpw with hpw'
        subst hpw'
        decide
      · cases hw3
  refine ⟨h.1 "abc" ["1.0.0"] rfl,
    h.2.1 "1.3.0" ["1.3.0"] ⟨1, 3, 0, []⟩ rfl (by decide),
    h.2.2.1 "1.0.0" ["junk"] ⟨1, 0, 0, []⟩ rfl (by decide) ?_,
    (h.2.2.2.1 "1.4.0" ["junk", "1.3.0"] ⟨1, 4, 0, []⟩ "1.3.0" ⟨1, 3, 0, []⟩
      rfl (by decide) (by decide) rfl hmaxfact).2 (by decide)⟩
  intro w hw
  rcases List.mem_cons.mp hw with rfl | hw2
  · rfl
  · cases hw2


end AMS
